import Mathlib

/-!
Shallow embedding of `src/examples/wgpu-triangle/src/lib.rs`.

The GPU API (wgpu) and the browser bindings (web-sys) are opaque
collaborators: GPU handles are modelled as opaque tokens, GPU side effects
as an explicit action trace, and host-determined outcomes (whether
`get_current_texture` succeeds, whether the DOM lookups in `run` succeed,
whether the casts in the resize callback succeed) as explicit parameters.
Machine integers (`u32`) are `Nat`; the only arithmetic on them in the
source is assignment and a zero test, so no overflow arises.
-/

namespace WgpuTriangle

/-- Model of `wgpu::SurfaceConfiguration` (the fields the program builds in
`State::new` and mutates in `State::resize`); fields other than
`width`/`height` are opaque tokens. -/
structure SurfaceConfiguration where
  usage : Nat
  format : Nat
  width : Nat
  height : Nat
  presentMode : Nat
  alphaMode : Nat
  viewFormats : List Nat
  desiredMaximumFrameLatency : Nat
deriving DecidableEq

/-- Model of `wgpu::Surface`: what the program can observe of it is the
configuration it was last configured with (`none` before any
`surface.configure`). -/
structure Surface where
  configured : Option SurfaceConfiguration
deriving DecidableEq

/-- Model of `surface.configure(&device, &config)`. -/
def Surface.configure (_self : Surface) (_device : Nat)
    (config : SurfaceConfiguration) : Surface :=
  { configured := some config }

/-- The variants of `wgpu::SurfaceError`. -/
inductive SurfaceError
  | Timeout
  | Outdated
  | Lost
  | OutOfMemory
  | Other
deriving DecidableEq

/-- Observable actions the program performs: console logging, the GPU
commands recorded by `State::render`, and surface reconfiguration. -/
inductive Action
  | log (msg : String)
  | beginRenderPass
  | setPipeline (pipeline : Nat)
  | draw (vertexStart vertexEnd instanceStart instanceEnd : Nat)
  | submit
  | present
  | configureSurface
deriving DecidableEq

/-- True exactly for console-log actions. -/
def Action.isLog : Action → Bool
  | .log _ => true
  | _ => false

/-- True exactly for draw calls. -/
def Action.isDraw : Action → Bool
  | .draw _ _ _ _ => true
  | _ => false

/-- Model of `struct State` (lib.rs lines 12-19).  `device`, `queue` and
`render_pipeline` are opaque handles. -/
structure State where
  device : Nat
  queue : Nat
  surface : Surface
  surface_config : SurfaceConfiguration
  render_pipeline : Nat
  size : Nat × Nat
deriving DecidableEq

/-- Model of `State::render` (lib.rs lines 139-180).  `texRes` is the
host-determined outcome of `self.surface.get_current_texture()`; the `?`
operator propagates its error.  On success the function records the render
pass (clear, `set_pipeline`, `draw(0..3, 0..1)`), submits the encoder and
presents the texture; it never writes any field of `self`. -/
def State.render (s : State) (texRes : Except SurfaceError Unit) :
    Except SurfaceError Unit × State × List Action :=
  match texRes with
  | .error e => (.error e, s, [])
  | .ok _ =>
      (.ok (), s,
        [Action.beginRenderPass,
         Action.setPipeline s.render_pipeline,
         Action.draw 0 3 0 1,
         Action.submit,
         Action.present])

/-- Model of `State::resize` (lib.rs lines 182-195): a zero dimension is
rejected with a log and an early return; otherwise `size` and the config
width/height are updated and the surface reconfigured. -/
def State.resize (s : State) (new_size : Nat × Nat) : State × List Action :=
  if new_size.1 = 0 ∨ new_size.2 = 0 then
    (s, [Action.log "Invalid resize dimensions"])
  else
    let cfg := { s.surface_config with width := new_size.1, height := new_size.2 }
    ({ s with
        size := new_size,
        surface_config := cfg,
        surface := s.surface.configure s.device cfg },
      [Action.configureSurface])

/-- Result of one invocation of the animation-frame closure: the State it
leaves behind, the actions it performed, and whether it reached the final
`request_animation_frame` call (scheduling the next frame). -/
structure FrameResult where
  state : State
  actions : List Action
  scheduledNext : Bool
deriving DecidableEq

/-- Model of the closure installed by `start_render_loop` (lib.rs lines
315-344).  `borrowOk` is the outcome of `state.try_borrow_mut()`: on
failure the frame is skipped with a log.  On a render error the match arms
are: `Lost` reconfigures the surface, `OutOfMemory` returns early (before
the `request_animation_frame` at the bottom), any other error only logs. -/
def animationFrameClosure (borrowOk : Bool) (s : State)
    (texRes : Except SurfaceError Unit) : FrameResult :=
  if borrowOk then
    match s.render texRes with
    | (.ok _, s1, tr) => ⟨s1, tr, true⟩
    | (.error SurfaceError.Lost, s1, tr) =>
        ⟨{ s1 with surface := s1.surface.configure s1.device s1.surface_config },
          tr ++ [Action.configureSurface, Action.log "Surface lost, reconfiguring"],
          true⟩
    | (.error SurfaceError.OutOfMemory, s1, tr) =>
        ⟨s1, tr ++ [Action.log "Out of memory!"], false⟩
    | (.error _, s1, tr) =>
        ⟨s1, tr ++ [Action.log "Render error"], true⟩
  else
    ⟨s, [Action.log "State borrowed elsewhere, skipping frame"], true⟩

/-- Model of the post-initialization branch of `resize_callback_async`
(lib.rs lines 269-290): with the State's `try_borrow_mut` succeeding, the
State is resized when the computed size differs from the stored one; when
the borrow fails the resize is skipped with a log. -/
def resizeCallbackElse (borrowOk : Bool) (s : State) (new_size : Nat × Nat) :
    State × List Action :=
  if borrowOk then
    if s.size ≠ new_size then
      let r := s.resize new_size
      (r.1, Action.log "Resizing" :: r.2)
    else
      (s, [])
  else
    (s, [Action.log "State is currently borrowed, skipping resize"])

/-- Model of an `f64` value as the program uses it: a finite value (as a
rational), an infinity, or NaN. -/
inductive F64
  | nan
  | posInf
  | negInf
  | val (q : ℚ)

/-- Model of `x.max(1.0)` on `f64` (Rust `f64::max` returns the other
operand when one is NaN). -/
def F64.maxWithOne : F64 → F64
  | .nan => .val 1
  | .posInf => .posInf
  | .negInf => .val 1
  | .val q => .val (max q 1)

/-- Model of Rust's saturating `as u32` cast from `f64`: NaN casts to 0,
finite values are truncated toward zero and clamped to `[0, 2^32 - 1]`. -/
def F64.asU32 : F64 → Nat
  | .nan => 0
  | .posInf => 2 ^ 32 - 1
  | .negInf => 0
  | .val q => min (Int.toNat ⌊q⌋) (2 ^ 32 - 1)

/-- Model of the size computation in `resize_callback_async` (lib.rs lines
219-222): `w` and `h` stand for `content_rect.width() * device_pixel_ratio`
and `content_rect.height() * device_pixel_ratio`, each clamped with
`.max(1.0)` before the `as u32` cast. -/
def resizeCallbackNewSize (w h : F64) : Nat × Nat :=
  ((F64.maxWithOne w).asU32, (F64.maxWithOne h).asU32)

/-- A concrete model State used to instantiate closed statements. -/
def testConfig : SurfaceConfiguration :=
  { usage := 16, format := 24, width := 8, height := 6,
    presentMode := 0, alphaMode := 0, viewFormats := [],
    desiredMaximumFrameLatency := 2 }

/-- A concrete model State (surface not yet configured, size 8 by 6). -/
def testState : State :=
  { device := 0, queue := 0, surface := { configured := none },
    surface_config := testConfig, render_pipeline := 0, size := (8, 6) }

/-- One heap-allocated `Rc<RefCell<State>>`: its identity, its current
`State` value, and whether the `RefCell` is mutably borrowed.  The borrow
flag describes the cell between scheduler steps; every borrow in the source
is taken and released inside one synchronous region (no `await` occurs
while a `State` borrow is held), which the step functions below mirror. -/
structure Cell where
  id : Nat
  st : State
  borrowed : Bool
deriving DecidableEq

/-- The program's shared mutable state: `GLOBAL_STATE` (the id of the
stored cell, if any), every `State` cell created so far, how many
`State::new` calls completed, how many resize callbacks are suspended at
the `State::new(canvas).await` point, how many `ResizeObserver`s `run` has
registered, and the ids whose render loop is running. -/
structure Sys where
  globalState : Option Nat
  cells : List Cell
  createdCount : Nat
  pendingInits : Nat
  observers : Nat
  loops : List Nat
deriving DecidableEq

/-- The initial program state: `GLOBAL_STATE` is `None`, nothing exists. -/
def Sys.start : Sys :=
  { globalState := none, cells := [], createdCount := 0,
    pendingInits := 0, observers := 0, loops := [] }

/-- The `State` value currently stored under an id (the first matching
cell, as `Rc` identity dictates). -/
def Sys.cellValue (s : Sys) (id : Nat) : Option State :=
  (s.cells.find? (fun c => c.id == id)).map (fun c => c.st)

/-- Whether the cell under an id is mutably borrowed (false when absent). -/
def Sys.cellBorrowed (s : Sys) (id : Nat) : Bool :=
  ((s.cells.find? (fun c => c.id == id)).map (fun c => c.borrowed)).getD false

/-- Scheduler events: the synchronous segments of the program, delimited by
`await` points, in the order the host event loop may run them.
`runCall domOk` is one call of `run` (`domOk`: the window/document/canvas
lookups succeed); `resizeEnter castOk sz` is one iteration of the resize
callback up to either suspending at `State::new(..).await` or completing
the synchronous resize branch (`castOk`: the entry/canvas casts and window
lookup succeed, `sz` the computed pixel size); `initDone r` is the
resumption after `State::new` finishes with result `r`; `frame id t` is one
invocation of the animation-frame closure of the loop over cell `id`, with
`t` the outcome of `get_current_texture`. -/
inductive Event
  | runCall (domOk : Bool)
  | resizeEnter (castOk : Bool) (sz : Nat × Nat)
  | initDone (result : Option State)
  | frame (id : Nat) (texRes : Except SurfaceError Unit)

/-- Classifies animation-frame events. -/
def Event.isFrame : Event → Bool
  | .frame _ _ => true
  | _ => false

/-- Classifies resize-callback-entry events. -/
def Event.isResizeEnter : Event → Bool
  | .resizeEnter _ _ => true
  | _ => false

/-- Classifies initialization-completion events. -/
def Event.isInitDone : Event → Bool
  | .initDone _ => true
  | _ => false

/-- The result `run` reports to its caller. -/
inductive RunResult
  | ok
  | err
deriving DecidableEq

/-- Model of `run` (lib.rs lines 356-394): the DOM lookups run first and
fail with `Err` before anything else; then, if `GLOBAL_STATE` is already
`Some`, `run` logs and returns `Ok(())`; otherwise it registers a
`ResizeObserver` on the canvas and returns `Ok(())`.  State creation itself
is left to the resize callback. -/
def runCallF (domOk : Bool) (s : Sys) : Sys × RunResult :=
  if domOk then
    if s.globalState.isSome then (s, RunResult.ok)
    else ({ s with observers := s.observers + 1 }, RunResult.ok)
  else (s, RunResult.err)

/-- Model of one iteration of `resize_callback_async` up to its first
suspension point (lib.rs lines 203-291).  When the casts fail the iteration
aborts with `Err`.  Otherwise `needs_state_creation` reads `GLOBAL_STATE`:
when it is `None` the callback calls `State::new(canvas).await` and
suspends (one more pending initialization); when it is `Some`, the
synchronous branch runs `try_borrow_mut` on the stored cell and resizes it
on success, all before returning. -/
def stepResizeEnter (castOk : Bool) (sz : Nat × Nat) (s : Sys) : Sys :=
  if castOk then
    match s.globalState with
    | none => { s with pendingInits := s.pendingInits + 1 }
    | some gid =>
        { s with
            cells := s.cells.map (fun c =>
              if c.id = gid then
                { c with st := (resizeCallbackElse (!c.borrowed) c.st sz).1 }
              else c) }
  else s

/-- Model of the resumption of `resize_callback_async` after `State::new`
returns (lib.rs lines 245-266): on `Ok(state)` the state is wrapped in a
fresh `Rc<RefCell<..>>`, stored into `GLOBAL_STATE` (replacing whatever is
there), and its render loop starts; on `Err` the callback only logs and
returns `Err`.  With no suspended initialization the event is impossible
and changes nothing. -/
def stepInitDone (result : Option State) (s : Sys) : Sys :=
  if s.pendingInits = 0 then s
  else
    match result with
    | none => { s with pendingInits := s.pendingInits - 1 }
    | some st0 =>
        let id := s.createdCount + 1
        { s with
            pendingInits := s.pendingInits - 1,
            createdCount := id,
            cells := s.cells ++ [{ id := id, st := st0, borrowed := false }],
            globalState := some id,
            loops := s.loops ++ [id] }

/-- Model of one invocation of the animation-frame closure of the render
loop over cell `id` (lib.rs lines 315-344): the closure body runs against
the cell's state under `try_borrow_mut`; when it does not reach the final
`request_animation_frame` (the `OutOfMemory` early return) that loop
stops. -/
def stepFrame (id : Nat) (texRes : Except SurfaceError Unit) (s : Sys) : Sys :=
  if id ∈ s.loops then
    let keep :=
      match s.cells.find? (fun c => c.id == id) with
      | some c => (animationFrameClosure (!c.borrowed) c.st texRes).scheduledNext
      | none => true
    { s with
        cells := s.cells.map (fun c =>
          if c.id = id then
            { c with st := (animationFrameClosure (!c.borrowed) c.st texRes).state }
          else c),
        loops := if keep then s.loops else s.loops.erase id }
  else s

/-- One scheduler step. -/
def step (e : Event) (s : Sys) : Sys :=
  match e with
  | .runCall domOk => (runCallF domOk s).1
  | .resizeEnter castOk sz => stepResizeEnter castOk sz s
  | .initDone result => stepInitDone result s
  | .frame id texRes => stepFrame id texRes s

/-- Runs a whole event trace. -/
def execT : List Event → Sys → Sys
  | [], s => s
  | e :: rest, s => execT rest (step e s)

/-- An event keeps initializations serialized at a state when it is not a
resize-callback entry that starts the creation branch (casts succeed,
`GLOBAL_STATE` is `None`) while another initialization is pending. -/
def serialCond (s : Sys) : Event → Bool
  | Event.resizeEnter castOk _ =>
      !castOk || !s.globalState.isNone || s.pendingInits == 0
  | _ => true

/-- A trace has serialized initializations when no resize callback starts
the creation branch while another initialization is still pending at its
`await`. -/
def serialInitFrom : Sys → List Event → Bool
  | _, [] => true
  | s, e :: rest => serialCond s e && serialInitFrom (step e s) rest

/-- Serialized initializations, starting from the initial program state. -/
def serialInit (t : List Event) : Bool :=
  serialInitFrom Sys.start t

/-- The mutable-borrow operations a scheduler step performs on the shared
`State` cells, in order: the frame closure and the synchronous resize
branch each run one `try_borrow_mut` (whose outcome the current borrow flag
determines) and, on success, release the borrow before the segment ends.
No other segment borrows a `State` cell. -/
inductive BorrowOp
  | tryAcquireMut (id : Nat) (ok : Bool)
  | release (id : Nat)
deriving DecidableEq

/-- The borrow operations of one scheduler step. -/
def stepBorrowOps (e : Event) (s : Sys) : List BorrowOp :=
  match e with
  | .runCall _ => []
  | .resizeEnter castOk _ =>
      if castOk then
        match s.globalState with
        | none => []
        | some gid =>
            if s.cellBorrowed gid then [BorrowOp.tryAcquireMut gid false]
            else [BorrowOp.tryAcquireMut gid true, BorrowOp.release gid]
      else []
  | .initDone _ => []
  | .frame id _ =>
      if id ∈ s.loops then
        if s.cellBorrowed id then [BorrowOp.tryAcquireMut id false]
        else [BorrowOp.tryAcquireMut id true, BorrowOp.release id]
      else []

/-- Checks, running at mutable-borrow depth `d`, that a successful mutable
acquisition only ever happens at depth zero: no two mutable borrows of the
shared `State` coexist. -/
def borrowOpsOk : Nat → List BorrowOp → Bool
  | _, [] => true
  | d, BorrowOp.tryAcquireMut _ ok :: rest =>
      (!ok || d == 0) && borrowOpsOk (if ok then d + 1 else d) rest
  | d, BorrowOp.release _ :: rest => borrowOpsOk (d - 1) rest

/-- C1 as stated is false: when `State::render` fails with
`SurfaceError::Lost`, the frame handler reconfigures the surface — the
surface does not stay unchanged, and an action beyond logging is taken.
Concretely, on a State whose surface is not yet configured, a `Lost` frame
changes the surface and performs a `configureSurface` action. -/
theorem C1_counterexample :
    (animationFrameClosure true testState
        (Except.error SurfaceError.Lost)).state.surface ≠ testState.surface ∧
    Action.configureSurface ∈
      (animationFrameClosure true testState
        (Except.error SurfaceError.Lost)).actions := by
  decide

/-- C1 (amended): on every render error the frame handler leaves
`surface_config` and `size` unchanged; on `Timeout`, `Outdated` and `Other`
errors the whole State (surface included) is unchanged, the only actions
are logs, and the frame is merely skipped; on `Lost` the handler
additionally reconfigures the surface from the stored config; on
`OutOfMemory` the State is unchanged and only logging happens, but the
handler returns without scheduling the next frame. -/
theorem C1_render_error_response (s : State) :
    (∀ e : SurfaceError,
        (animationFrameClosure true s (Except.error e)).state.surface_config
            = s.surface_config ∧
        (animationFrameClosure true s (Except.error e)).state.size = s.size) ∧
    ((animationFrameClosure true s (Except.error SurfaceError.Timeout)).state = s ∧
      ((animationFrameClosure true s
          (Except.error SurfaceError.Timeout)).actions.all Action.isLog) = true ∧
      (animationFrameClosure true s
          (Except.error SurfaceError.Timeout)).scheduledNext = true) ∧
    ((animationFrameClosure true s (Except.error SurfaceError.Outdated)).state = s ∧
      ((animationFrameClosure true s
          (Except.error SurfaceError.Outdated)).actions.all Action.isLog) = true ∧
      (animationFrameClosure true s
          (Except.error SurfaceError.Outdated)).scheduledNext = true) ∧
    ((animationFrameClosure true s (Except.error SurfaceError.Other)).state = s ∧
      ((animationFrameClosure true s
          (Except.error SurfaceError.Other)).actions.all Action.isLog) = true ∧
      (animationFrameClosure true s
          (Except.error SurfaceError.Other)).scheduledNext = true) ∧
    ((animationFrameClosure true s (Except.error SurfaceError.Lost)).state =
        { s with surface := s.surface.configure s.device s.surface_config } ∧
      (animationFrameClosure true s
          (Except.error SurfaceError.Lost)).scheduledNext = true) ∧
    ((animationFrameClosure true s (Except.error SurfaceError.OutOfMemory)).state = s ∧
      ((animationFrameClosure true s
          (Except.error SurfaceError.OutOfMemory)).actions.all Action.isLog) = true ∧
      (animationFrameClosure true s
          (Except.error SurfaceError.OutOfMemory)).scheduledNext = false) := by
  refine ⟨fun e => ?_, ⟨rfl, rfl, rfl⟩, ⟨rfl, rfl, rfl⟩, ⟨rfl, rfl, rfl⟩,
    ⟨rfl, rfl⟩, ⟨rfl, rfl, rfl⟩⟩
  cases e <;> exact ⟨rfl, rfl⟩

/-- C2 as stated is false: when render fails with `OutOfMemory` the handler
returns before the final `request_animation_frame`, so the next frame is
not scheduled and the render loop terminates. -/
theorem C2_counterexample :
    (animationFrameClosure true testState
        (Except.error SurfaceError.OutOfMemory)).scheduledNext = false := by
  decide

/-- C2 (amended): every invocation of the animation-frame handler schedules
the next frame before returning — whether the render succeeded, failed, or
was skipped on borrow contention — except exactly when the borrow succeeds
and render fails with `OutOfMemory`, in which case the handler returns
without scheduling and the loop terminates. -/
theorem C2_schedules_next_frame (borrowOk : Bool) (s : State)
    (texRes : Except SurfaceError Unit) :
    (animationFrameClosure borrowOk s texRes).scheduledNext = false ↔
      (borrowOk = true ∧ texRes = Except.error SurfaceError.OutOfMemory) := by
  cases borrowOk with
  | false => simp [animationFrameClosure]
  | true =>
      cases texRes with
      | ok u => simp [animationFrameClosure, State.render]
      | error e => cases e <;> simp [animationFrameClosure, State.render]

/-- C3 (confirmed): when the shared State is already mutably borrowed, the
frame handler's `try_borrow_mut` fails and the frame is skipped — the State
is unchanged, only a log is emitted, and the next frame is still scheduled
— and likewise the post-initialization resize path leaves the State
unchanged and only logs.  Both paths match on the `Err` of
`try_borrow_mut` instead of calling the panicking `borrow_mut`, so the
embedding of each is total on the contention branch. -/
theorem C3_contention_skips (s : State) (texRes : Except SurfaceError Unit)
    (ns : Nat × Nat) :
    (animationFrameClosure false s texRes).state = s ∧
    ((animationFrameClosure false s texRes).actions.all Action.isLog) = true ∧
    (animationFrameClosure false s texRes).scheduledNext = true ∧
    (resizeCallbackElse false s ns).1 = s ∧
    ((resizeCallbackElse false s ns).2.all Action.isLog) = true :=
  ⟨rfl, rfl, rfl, rfl, rfl⟩

/-- C6 (confirmed): every successful `State::render` performs exactly one
draw call, namely `draw(0..3, 0..1)` — vertices 0..3 of one instance — and
the last action is presenting the acquired surface texture. -/
theorem C6_single_triangle_draw (s : State) (texRes : Except SurfaceError Unit)
    (h : (s.render texRes).1 = Except.ok ()) :
    ((s.render texRes).2.2.filter Action.isDraw) = [Action.draw 0 3 0 1] ∧
    (s.render texRes).2.2.getLast? = some Action.present := by
  cases texRes with
  | error e => exact absurd h (by simp [State.render])
  | ok u => exact ⟨rfl, rfl⟩

/-- Witness for C6 at a concrete State and a successful texture. -/
theorem C6_single_triangle_draw_w :
    ((testState.render (Except.ok ())).2.2.filter Action.isDraw)
        = [Action.draw 0 3 0 1] ∧
    (testState.render (Except.ok ())).2.2.getLast? = some Action.present :=
  C6_single_triangle_draw testState (Except.ok ()) rfl

/-- C8 (confirmed): a new size with a zero component makes `State::resize`
return after logging, with every State field unchanged and no surface
reconfiguration. -/
theorem C8_resize_zero_noop (s : State) (ns : Nat × Nat)
    (h : ns.1 = 0 ∨ ns.2 = 0) :
    (s.resize ns).1 = s ∧ Action.configureSurface ∉ (s.resize ns).2 := by
  unfold State.resize
  rw [if_pos h]
  exact ⟨rfl, by simp⟩

/-- Witness for C8 at a concrete State and the size (0, 7). -/
theorem C8_resize_zero_noop_w :
    (testState.resize (0, 7)).1 = testState ∧
    Action.configureSurface ∉ (testState.resize (0, 7)).2 :=
  C8_resize_zero_noop testState (0, 7) (Or.inl rfl)

/-- C9 (confirmed): whatever `f64` values the content rect and device pixel
ratio produce (NaN and infinities included), both components of the size
the resize callback computes are at least 1, so `State::resize` called on
that size never takes its invalid-dimension early return: it always runs
the reconfigure branch. -/
theorem C9_resize_size_positive (w h : F64) (s : State) :
    1 ≤ (resizeCallbackNewSize w h).1 ∧ 1 ≤ (resizeCallbackNewSize w h).2 ∧
    (s.resize (resizeCallbackNewSize w h)).2 = [Action.configureSurface] := by
  have key : ∀ x : F64, 1 ≤ (F64.maxWithOne x).asU32 := by
    intro x
    cases x with
    | nan => norm_num [F64.maxWithOne, F64.asU32]
    | posInf => norm_num [F64.maxWithOne, F64.asU32]
    | negInf => norm_num [F64.maxWithOne, F64.asU32]
    | val q =>
        have h1 : (1 : ℤ) ≤ ⌊max q 1⌋ := by
          rw [Int.le_floor]
          exact_mod_cast le_max_right q 1
        have h2 : 1 ≤ (⌊max q 1⌋).toNat := by
          simpa using Int.toNat_le_toNat h1
        simp only [F64.maxWithOne, F64.asU32]
        exact le_min h2 (by norm_num)
  refine ⟨key w, key h, ?_⟩
  have hw : (resizeCallbackNewSize w h).1 ≠ 0 :=
    Nat.one_le_iff_ne_zero.mp (key w)
  have hh : (resizeCallbackNewSize w h).2 ≠ 0 :=
    Nat.one_le_iff_ne_zero.mp (key h)
  unfold State.resize
  rw [if_neg (not_or.mpr ⟨hw, hh⟩)]

lemma execT_append (t1 t2 : List Event) (s : Sys) :
    execT (t1 ++ t2) s = execT t2 (execT t1 s) := by
  induction t1 generalizing s with
  | nil => rfl
  | cons e rest ih =>
      simp only [List.cons_append, execT]
      exact ih (step e s)

lemma step_runCall_proj (domOk : Bool) (s : Sys) :
    (step (Event.runCall domOk) s).globalState = s.globalState ∧
    (step (Event.runCall domOk) s).pendingInits = s.pendingInits ∧
    (step (Event.runCall domOk) s).cells = s.cells := by
  cases domOk with
  | false => exact ⟨rfl, rfl, rfl⟩
  | true => rcases hg : s.globalState with _ | gid <;> simp [step, runCallF, hg]

lemma step_frame_proj (id : Nat) (texRes : Except SurfaceError Unit) (s : Sys) :
    (step (Event.frame id texRes) s).globalState = s.globalState ∧
    (step (Event.frame id texRes) s).pendingInits = s.pendingInits := by
  by_cases hmem : id ∈ s.loops <;> simp [step, stepFrame, hmem]

lemma step_resizeEnter_globalState (castOk : Bool) (sz : Nat × Nat) (s : Sys) :
    (step (Event.resizeEnter castOk sz) s).globalState = s.globalState := by
  cases castOk with
  | false => rfl
  | true => rcases hg : s.globalState with _ | gid <;> simp [step, stepResizeEnter, hg]

/-- The program invariant the serialized-initialization hypothesis
maintains: at most one initialization is ever pending, and none is pending
once `GLOBAL_STATE` holds a state. -/
def SysInv (s : Sys) : Prop :=
  s.pendingInits ≤ 1 ∧ (s.globalState.isSome = true → s.pendingInits = 0)

lemma sysInv_of_proj (s s' : Sys) (hg : s'.globalState = s.globalState)
    (hp : s'.pendingInits = s.pendingInits) (hI : SysInv s) : SysInv s' := by
  unfold SysInv
  rw [hg, hp]
  exact hI

lemma sysInv_start : SysInv Sys.start :=
  ⟨Nat.zero_le 1, fun _ => rfl⟩

lemma sysInv_step (s : Sys) (e : Event) (hI : SysInv s)
    (hc : serialCond s e = true) : SysInv (step e s) := by
  obtain ⟨h1, h2⟩ := hI
  cases e with
  | runCall domOk =>
      have hp := step_runCall_proj domOk s
      exact sysInv_of_proj s _ hp.1 hp.2.1 ⟨h1, h2⟩
  | frame id texRes =>
      have hp := step_frame_proj id texRes s
      exact sysInv_of_proj s _ hp.1 hp.2 ⟨h1, h2⟩
  | resizeEnter castOk sz =>
      cases castOk with
      | false => exact ⟨h1, h2⟩
      | true =>
          rcases hg : s.globalState with _ | gid
          · simp only [serialCond, hg, Option.isNone_none, Bool.not_true,
              Bool.false_or, Bool.not_false] at hc
            have hp0 : s.pendingInits = 0 := by
              simpa using hc
            refine ⟨?_, ?_⟩
            · simp [step, stepResizeEnter, hg, hp0]
            · intro hs
              simp [step, stepResizeEnter, hg] at hs
          · refine sysInv_of_proj s _ ?_ ?_ ⟨h1, h2⟩ <;>
              simp [step, stepResizeEnter, hg]
  | initDone r =>
      by_cases hp : s.pendingInits = 0
      · have hstep : step (Event.initDone r) s = s := by
          simp [step, stepInitDone, hp]
        rw [hstep]
        exact ⟨h1, h2⟩
      · cases r with
        | none =>
            refine ⟨?_, ?_⟩
            · simp only [step, stepInitDone, if_neg hp]
              omega
            · intro hs
              simp only [step, stepInitDone, if_neg hp] at hs ⊢
              have := h2 hs
              omega
        | some st0 =>
            refine ⟨?_, ?_⟩ <;> simp only [step, stepInitDone, if_neg hp] <;> omega

lemma globalState_stable_step (s : Sys) (e : Event) (id : Nat) (hI : SysInv s)
    (hg : s.globalState = some id) : (step e s).globalState = some id := by
  cases e with
  | runCall domOk => rw [(step_runCall_proj domOk s).1, hg]
  | frame fid texRes => rw [(step_frame_proj fid texRes s).1, hg]
  | resizeEnter castOk sz => rw [step_resizeEnter_globalState castOk sz s, hg]
  | initDone r =>
      have hp : s.pendingInits = 0 := hI.2 (by simp [hg])
      simp [step, stepInitDone, hp, hg]

lemma globalState_stable_execT (t : List Event) (s : Sys) (id : Nat)
    (hI : SysInv s) (hser : serialInitFrom s t = true)
    (hg : s.globalState = some id) : (execT t s).globalState = some id := by
  induction t generalizing s with
  | nil => exact hg
  | cons e rest ih =>
      rw [serialInitFrom, Bool.and_eq_true] at hser
      exact ih (step e s) (sysInv_step s e hI hser.1) hser.2
        (globalState_stable_step s e id hI hg)

lemma sysInv_execT (t : List Event) (s : Sys) (hI : SysInv s)
    (hser : serialInitFrom s t = true) : SysInv (execT t s) := by
  induction t generalizing s with
  | nil => exact hI
  | cons e rest ih =>
      rw [serialInitFrom, Bool.and_eq_true] at hser
      exact ih (step e s) (sysInv_step s e hI hser.1) hser.2

lemma serialInitFrom_append (t1 t2 : List Event) (s : Sys) :
    serialInitFrom s (t1 ++ t2)
      = (serialInitFrom s t1 && serialInitFrom (execT t1 s) t2) := by
  induction t1 generalizing s with
  | nil => simp [serialInitFrom, execT]
  | cons e rest ih =>
      change (serialCond s e && serialInitFrom (step e s) (rest ++ t2))
        = ((serialCond s e && serialInitFrom (step e s) rest)
            && serialInitFrom (execT rest (step e s)) t2)
      rw [ih (step e s), Bool.and_assoc]

lemma step_globalState_isSome (e : Event) (s : Sys)
    (hs : s.globalState.isSome = true) : (step e s).globalState.isSome = true := by
  cases e with
  | runCall domOk => rw [(step_runCall_proj domOk s).1]; exact hs
  | frame fid texRes => rw [(step_frame_proj fid texRes s).1]; exact hs
  | resizeEnter castOk sz => rw [step_resizeEnter_globalState castOk sz s]; exact hs
  | initDone r =>
      by_cases hp : s.pendingInits = 0
      · simp only [step, stepInitDone, if_pos hp]; exact hs
      · cases r with
        | none => simp only [step, stepInitDone, if_neg hp]; exact hs
        | some st0 => simp [step, stepInitDone, if_neg hp]

lemma isSome_execT (t : List Event) (s : Sys)
    (hs : s.globalState.isSome = true) : (execT t s).globalState.isSome = true := by
  induction t generalizing s with
  | nil => exact hs
  | cons e rest ih => exact ih (step e s) (step_globalState_isSome e s hs)

/-- C4 as stated is false: the `GLOBAL_STATE.is_none` check runs before the
`State::new(..).await`, so a second resize callback entering that window
also takes the creation branch, and its completion replaces the state the
first completion stored.  After two overlapping creation branches,
`GLOBAL_STATE` holds the first created state and the next completion
replaces it with the second — a second None-to-Some-style write. -/
theorem C4_counterexample :
    (execT [Event.resizeEnter true (8, 6), Event.resizeEnter true (8, 6),
        Event.initDone (some testState)] Sys.start).globalState = some 1 ∧
    (execT [Event.resizeEnter true (8, 6), Event.resizeEnter true (8, 6),
        Event.initDone (some testState), Event.initDone (some testState)]
        Sys.start).globalState = some 2 := by
  decide

/-- C4 (amended): `GLOBAL_STATE` is never reset to `None` once set; the
resize callback enters the state-creation branch only when `GLOBAL_STATE`
is `None`, and `run` registers its `ResizeObserver` only when
`GLOBAL_STATE` is `None`.  The at-most-once part holds only for executions
with serialized initializations (no resize callback starts creating while
another `State::new` is pending): in those, once `GLOBAL_STATE` holds a
state it is never replaced, so a single shared state object exists from
then on. -/
theorem C4_global_state_write_once :
    (∀ t1 t2 : List Event,
        (execT t1 Sys.start).globalState.isSome = true →
        (execT (t1 ++ t2) Sys.start).globalState.isSome = true) ∧
    (∀ (s : Sys) (castOk : Bool) (sz : Nat × Nat),
        (stepResizeEnter castOk sz s).pendingInits ≠ s.pendingInits →
        s.globalState = none) ∧
    (∀ (s : Sys) (domOk : Bool),
        (runCallF domOk s).1.observers ≠ s.observers →
        s.globalState = none) ∧
    (∀ t1 t2 : List Event, serialInit (t1 ++ t2) = true →
        ∀ id : Nat, (execT t1 Sys.start).globalState = some id →
          (execT (t1 ++ t2) Sys.start).globalState = some id) := by
  refine ⟨?_, ?_, ?_, ?_⟩
  · intro t1 t2 h
    rw [execT_append]
    exact isSome_execT t2 _ h
  · intro s castOk sz hne
    cases castOk with
    | false => exact absurd rfl hne
    | true =>
        rcases hg : s.globalState with _ | gid
        · rfl
        · exact absurd (by simp [stepResizeEnter, hg]) hne
  · intro s domOk hne
    cases domOk with
    | false => exact absurd rfl hne
    | true =>
        rcases hg : s.globalState with _ | gid
        · rfl
        · exact absurd (by simp [runCallF, hg]) hne
  · intro t1 t2 hser id hg1
    rw [serialInit, serialInitFrom_append, Bool.and_eq_true] at hser
    rw [execT_append]
    exact globalState_stable_execT t2 _ id
      (sysInv_execT t1 Sys.start sysInv_start hser.1) hser.2 hg1

lemma find?_cells_map (cells : List Cell) (p : Nat) (g : Cell → Cell)
    (hg : ∀ c, (g c).id = c.id) :
    List.find? (fun c => c.id == p) (cells.map g)
      = (List.find? (fun c => c.id == p) cells).map g := by
  rw [List.find?_map]
  have hpred : ((fun c : Cell => c.id == p) ∘ g) = fun c : Cell => c.id == p := by
    funext c
    simp [Function.comp, hg c]
  rw [hpred]

/-- C5 (confirmed): a cell's stored `State` value changes only on a frame
event or a resize-callback entry (the frame handler and the resize
handler), and a cell comes into existence only when a `State::new`
completes (the initializer); `run` events never change a cell.  Moreover a
cell whose `RefCell` is mutably borrowed is never mutated by any event: the
two mutating segments reach the state only through a successful
`try_borrow_mut`, so every mutation happens while holding the guard. -/
theorem C5_mutation_sites :
    (∀ (sys : Sys) (e : Event) (id : Nat),
        Sys.cellValue (step e sys) id ≠ Sys.cellValue sys id →
          (Event.isFrame e || Event.isResizeEnter e) = true ∨
          (Event.isInitDone e = true ∧ Sys.cellValue sys id = none)) ∧
    (∀ (sys : Sys) (e : Event) (id : Nat),
        Sys.cellBorrowed sys id = true →
          Sys.cellValue (step e sys) id = Sys.cellValue sys id) := by
  constructor
  · intro sys e id hne
    cases e with
    | runCall domOk =>
        exact absurd (by unfold Sys.cellValue
                         rw [(step_runCall_proj domOk sys).2.2]) hne
    | resizeEnter castOk sz => exact Or.inl rfl
    | frame fid texRes => exact Or.inl rfl
    | initDone r =>
        by_cases hp : sys.pendingInits = 0
        · exact absurd (by simp [step, stepInitDone, hp]) hne
        · cases r with
          | none =>
              exact absurd (by simp [step, stepInitDone, hp, Sys.cellValue]) hne
          | some st0 =>
              refine Or.inr ⟨rfl, ?_⟩
              rcases hf : sys.cells.find? (fun c => c.id == id) with _ | c
              · simp [Sys.cellValue, hf]
              · exfalso
                apply hne
                unfold Sys.cellValue
                simp only [step, stepInitDone, if_neg hp]
                rw [List.find?_append, hf]
                rfl
  · intro sys e id hb
    unfold Sys.cellBorrowed at hb
    rcases hf : sys.cells.find? (fun c => c.id == id) with _ | c
    · rw [hf] at hb
      simp at hb
    · rw [hf] at hb
      simp at hb
      cases e with
      | runCall domOk =>
          unfold Sys.cellValue
          rw [(step_runCall_proj domOk sys).2.2]
      | initDone r =>
          by_cases hp : sys.pendingInits = 0
          · simp [step, stepInitDone, hp]
          · cases r with
            | none => simp [step, stepInitDone, hp, Sys.cellValue]
            | some st0 =>
                unfold Sys.cellValue
                simp only [step, stepInitDone, if_neg hp]
                rw [List.find?_append, hf]
                rfl
      | frame fid texRes =>
          by_cases hmem : fid ∈ sys.loops
          · unfold Sys.cellValue
            simp only [step, stepFrame, if_pos hmem]
            rw [find?_cells_map _ _ _
              (by intro c; by_cases hc : c.id = fid <;> simp [hc])]
            rw [hf]
            by_cases hc : c.id = fid
            · simp [hc, hb, animationFrameClosure]
            · simp [hc]
          · simp [step, stepFrame, hmem]
      | resizeEnter castOk sz =>
          cases castOk with
          | false => rfl
          | true =>
              rcases hg : sys.globalState with _ | gid
              · simp [step, stepResizeEnter, hg, Sys.cellValue]
              · have hstep : step (Event.resizeEnter true sz) sys
                    = { sys with cells := sys.cells.map (fun c =>
                        if c.id = gid
                        then { c with
                                st := (resizeCallbackElse (!c.borrowed) c.st sz).1 }
                        else c) } := by
                  simp [step, stepResizeEnter, hg]
                rw [hstep]
                unfold Sys.cellValue
                rw [show ({ sys with cells := sys.cells.map (fun c =>
                    if c.id = gid
                    then { c with
                            st := (resizeCallbackElse (!c.borrowed) c.st sz).1 }
                    else c) } : Sys).cells = sys.cells.map (fun c =>
                    if c.id = gid
                    then { c with
                            st := (resizeCallbackElse (!c.borrowed) c.st sz).1 }
                    else c) from rfl]
                rw [find?_cells_map _ _ _
                  (by intro c; by_cases hc : c.id = gid <;> simp [hc])]
                rw [hf]
                by_cases hc : c.id = gid
                · simp [hc, hb, resizeCallbackElse]
                · simp [hc]

lemma cells_unborrowed_step (e : Event) (s : Sys)
    (h : (s.cells.all fun c => !c.borrowed) = true) :
    ((step e s).cells.all fun c => !c.borrowed) = true := by
  cases e with
  | runCall domOk => rw [(step_runCall_proj domOk s).2.2]; exact h
  | resizeEnter castOk sz =>
      cases castOk with
      | false => exact h
      | true =>
          rcases hg : s.globalState with _ | gid
          · simpa [step, stepResizeEnter, hg] using h
          · have hstep : step (Event.resizeEnter true sz) s
                = { s with cells := s.cells.map (fun c =>
                    if c.id = gid
                    then { c with st := (resizeCallbackElse (!c.borrowed) c.st sz).1 }
                    else c) } := by
              simp [step, stepResizeEnter, hg]
            rw [hstep]
            have hcomp : ((fun c : Cell => !c.borrowed) ∘ fun c =>
                if c.id = gid
                then { c with st := (resizeCallbackElse (!c.borrowed) c.st sz).1 }
                else c) = fun c : Cell => !c.borrowed := by
              funext c
              by_cases hc : c.id = gid <;> simp [hc]
            rw [show ({ s with cells := s.cells.map (fun c =>
                if c.id = gid
                then { c with st := (resizeCallbackElse (!c.borrowed) c.st sz).1 }
                else c) } : Sys).cells = s.cells.map (fun c =>
                if c.id = gid
                then { c with st := (resizeCallbackElse (!c.borrowed) c.st sz).1 }
                else c) from rfl]
            rw [List.all_map, hcomp]
            exact h
  | initDone r =>
      by_cases hp : s.pendingInits = 0
      · simp only [step, stepInitDone, if_pos hp]; exact h
      · cases r with
        | none => simp only [step, stepInitDone, if_neg hp]; exact h
        | some st0 => simp [step, stepInitDone, if_neg hp, List.all_append, h]
  | frame fid texRes =>
      by_cases hmem : fid ∈ s.loops
      · simp only [step, stepFrame, if_pos hmem, List.all_map]
        have hcomp : ((fun c : Cell => !c.borrowed) ∘ fun c =>
            if c.id = fid
            then { c with
                    st := (animationFrameClosure (!c.borrowed) c.st texRes).state }
            else c) = fun c : Cell => !c.borrowed := by
          funext c
          by_cases hc : c.id = fid <;> simp [hc]
        rw [hcomp]
        exact h
      · simp only [step, stepFrame, if_neg hmem]; exact h

lemma cells_unborrowed_execT (t : List Event) (s : Sys)
    (h : (s.cells.all fun c => !c.borrowed) = true) :
    ((execT t s).cells.all fun c => !c.borrowed) = true := by
  induction t generalizing s with
  | nil => exact h
  | cons e rest ih => exact ih (step e s) (cells_unborrowed_step e s h)

lemma cellBorrowed_eq_false (s : Sys)
    (h : (s.cells.all fun c => !c.borrowed) = true) (id : Nat) :
    s.cellBorrowed id = false := by
  unfold Sys.cellBorrowed
  rcases hf : s.cells.find? (fun c => c.id == id) with _ | c
  · rw [hf]
    rfl
  · rw [hf]
    have hm : c ∈ s.cells := List.mem_of_find?_eq_some hf
    have hc := List.all_eq_true.mp h c hm
    simpa using hc

/-- C7 (confirmed): under every interleaving of the initialization path,
the resize callback and the per-frame callback — every event trace of the
cooperative scheduler, whose switch points are the `await` boundaries, as
no `State` borrow in the source spans an `await` — every reachable
inter-segment state has all shared `State` cells unborrowed, and the
borrow operations of whatever segment runs next only ever acquire a
mutable borrow at depth zero: no execution reaches a double mutable borrow
of a shared `State`, and in particular the frame handler never runs
against a `State` the resize handler is mutating. -/
theorem C7_no_double_borrow (t : List Event) (e : Event) :
    ((execT t Sys.start).cells.all fun c => !c.borrowed) = true ∧
    borrowOpsOk 0 (stepBorrowOps e (execT t Sys.start)) = true := by
  have hall := cells_unborrowed_execT t Sys.start rfl
  refine ⟨hall, ?_⟩
  cases e with
  | runCall domOk => rfl
  | initDone r => rfl
  | resizeEnter castOk sz =>
      cases castOk with
      | false => rfl
      | true =>
          rcases hg : (execT t Sys.start).globalState with _ | gid
          · simp [stepBorrowOps, hg, borrowOpsOk]
          · simp [stepBorrowOps, hg,
              cellBorrowed_eq_false (execT t Sys.start) hall gid, borrowOpsOk]
  | frame fid texRes =>
      by_cases hmem : fid ∈ (execT t Sys.start).loops
      · simp [stepBorrowOps, hmem,
          cellBorrowed_eq_false (execT t Sys.start) hall fid, borrowOpsOk]
      · simp [stepBorrowOps, hmem, borrowOpsOk]

/-- C10 as stated is false: `run` performs the window/document/canvas
lookups before the already-initialized check, so a call made while
`GLOBAL_STATE` is `Some` whose canvas lookup fails returns `Err`, not
`Ok(())`.  The concrete system below is `GLOBAL_STATE` already set by one
completed initialization. -/
theorem C10_counterexample :
    (execT [Event.resizeEnter true (8, 6), Event.initDone (some testState)]
        Sys.start).globalState.isSome = true ∧
    (runCallF false (execT [Event.resizeEnter true (8, 6),
        Event.initDone (some testState)] Sys.start)).2 = RunResult.err := by
  decide

/-- C10 (amended): every call of `run` while `GLOBAL_STATE` is `Some`
leaves the program state untouched — no new `ResizeObserver`, no change to
`GLOBAL_STATE` or anything else — so a second call has the same observable
effect on program state as the first, and it returns `Ok(())` whenever the
DOM lookups succeed (when they fail it returns `Err`, still with no side
effect). -/
theorem C10_run_after_init (s : Sys) (domOk : Bool)
    (hs : s.globalState.isSome = true) :
    (runCallF domOk s).1 = s ∧
    (runCallF domOk ((runCallF domOk s).1)).1 = (runCallF domOk s).1 ∧
    (domOk = true → (runCallF domOk s).2 = RunResult.ok) := by
  cases domOk with
  | false => exact ⟨rfl, rfl, fun hc => nomatch hc⟩
  | true =>
      have h1 : (runCallF true s).1 = s := by simp [runCallF, hs]
      refine ⟨h1, ?_, ?_⟩
      · rw [h1, h1]
      · intro _
        simp [runCallF, hs]

/-- Witness for C10 at the system state left by one completed
initialization and a call of `run` whose DOM lookups succeed. -/
theorem C10_run_after_init_w :
    (runCallF true (execT [Event.resizeEnter true (8, 6),
        Event.initDone (some testState)] Sys.start)).1
      = execT [Event.resizeEnter true (8, 6), Event.initDone (some testState)]
          Sys.start ∧
    (runCallF true ((runCallF true (execT [Event.resizeEnter true (8, 6),
        Event.initDone (some testState)] Sys.start)).1)).1
      = (runCallF true (execT [Event.resizeEnter true (8, 6),
          Event.initDone (some testState)] Sys.start)).1 ∧
    (true = true →
      (runCallF true (execT [Event.resizeEnter true (8, 6),
          Event.initDone (some testState)] Sys.start)).2 = RunResult.ok) :=
  C10_run_after_init _ true (by decide)

end WgpuTriangle
